import Mathlib

/-!
Shallow embedding of the gubernator gRPC core (`grpc.go`): the request
dispatcher (`GetRateLimits`, `GetPeerRateLimits`), the peer-facing no-op
`UpdatePeerGlobals`, the membership rebuild (`updatePeers`), and the startup
sequence (`Start` with its `retry` helper).  External collaborators (the
consistent-hash `Picker`, the rate-limit algorithms, peer connections, the
`PeerSyncer`) are modelled as opaque parameters or list-backed capabilities
following the interfaces the source consumes.
-/

namespace Gubernator

/-- Constant `maxBatchSize` from `grpc.go`. -/
def maxBatchSize : Nat := 1000

/-- Status string constant `Healthy` from `grpc.go`. -/
def Healthy : String := "healthy"

/-- Status string constant `UnHealthy` from `grpc.go`. -/
def UnHealthy : String := "unhealthy"

/-- Protobuf enum value `Algorithm_TOKEN_BUCKET` (int32 value 0). -/
def Algorithm_TOKEN_BUCKET : Int := 0

/-- Protobuf enum value `Algorithm_LEAKY_BUCKET` (int32 value 1). -/
def Algorithm_LEAKY_BUCKET : Int := 1

/-- A rate-limit request item (`Request` message): namespace, unique key, the
algorithm selector (a protobuf int32 enum), and the hit count. -/
structure Request where
  Namespace : String
  UniqueKey : String
  Algorithm : Int
  Hits : Int := 1
  deriving DecidableEq, Repr

/-- A rate-limit result (`RateLimit` message).  `Error` is the soft per-item
error channel (empty string means no error); `Metadata` models the
`map[string]string` field (`[]` is Go's nil map). -/
structure RateLimit where
  Limit : Int := 0
  Remaining : Int := 0
  ResetTime : Int := 0
  Error : String := ""
  Metadata : List (String × String) := []
  deriving DecidableEq, Repr

/-- A `PeerClient`: the handle to one cluster member.  `host` is the peer's
address, `isOwner` is true iff the handle refers to this server instance. -/
structure PeerClient where
  host : String
  isOwner : Bool
  deriving DecidableEq, Repr

/-- gRPC status codes used by the source (`codes.OutOfRange`). -/
inductive Code where
  | OutOfRange
  deriving DecidableEq, Repr

/-- A request-level gRPC error as produced by `status.Errorf`. -/
structure Status where
  code : Code
  msg : String
  deriving DecidableEq, Repr

/-- Observable side effects of dispatching one batch: a Picker ownership
lookup, an invocation of a local rate-limit algorithm, or a remote peer
call. -/
inductive Effect where
  | pickerLookup (key : String)
  | localCall (r : Request)
  | remoteCall (host : String) (r : Request)
  deriving DecidableEq, Repr

/-- Modelled from the spec: the external collaborators the dispatcher
consumes — the consistent-hash `Picker.Get` lookup, the two rate-limit
algorithms (`tokenBucket`, `leakyBucket`, out of scope for this core), and
the remote call `PeerClient.GetPeerRateLimit` keyed by the peer's host.
Each may fail, mirroring the Go `(value, error)` returns. -/
structure Env where
  pickerGet : String → Except String PeerClient
  tokenBucket : Request → Except String RateLimit
  leakyBucket : Request → Except String RateLimit
  peerGetRateLimit : String → Request → Except String RateLimit

/-- Method `Instance.getRateLimit`: dispatch on the algorithm enum under the cache
lock; unknown enum values produce an error without invoking any algorithm.
The effect list records which local algorithm invocation happened. -/
def getRateLimit (env : Env) (r : Request) : Except String RateLimit × List Effect :=
  if r.Algorithm = Algorithm_TOKEN_BUCKET then
    (env.tokenBucket r, [Effect.localCall r])
  else if r.Algorithm = Algorithm_LEAKY_BUCKET then
    (env.leakyBucket r, [Effect.localCall r])
  else
    (Except.error ("invalid rate limit algorithm \x27" ++ toString r.Algorithm ++ "\x27"),
      [])

/-- The per-item body of the `GetRateLimits` loop: validate `unique_key` then
`namespace`, look up the owning peer, then either apply the local algorithm
(owner) or call the remote peer and stamp `metadata["owner"]`.  Every branch
produces exactly one `RateLimit` (the `goto NextRateLimit` flow); the effect
list records the lookup and any algorithm/remote calls. -/
def handleRequest (env : Env) (req : Request) : RateLimit × List Effect :=
  let globalKey := req.Namespace ++ "_" ++ req.UniqueKey
  if req.UniqueKey.length = 0 then
    ({ Error := "field \x27unique_key\x27 cannot be empty" }, [])
  else if req.Namespace.length = 0 then
    ({ Error := "field \x27namespace\x27 cannot be empty" }, [])
  else
    match env.pickerGet globalKey with
    | Except.error err =>
        ({ Error := "while finding peer that owns rate limit \x27" ++ globalKey ++
            "\x27 - \x27" ++ err ++ "\x27" },
          [Effect.pickerLookup globalKey])
    | Except.ok peer =>
        if peer.isOwner then
          match getRateLimit env req with
          | (Except.ok rl, effs) => (rl, Effect.pickerLookup globalKey :: effs)
          | (Except.error err, effs) =>
              ({ Error := "while applying rate limit for \x27" ++ globalKey ++
                  "\x27 - \x27" ++ err ++ "\x27" },
                Effect.pickerLookup globalKey :: effs)
        else
          match env.peerGetRateLimit peer.host req with
          | Except.ok rl =>
              ({ rl with Metadata := [("owner", peer.host)] },
                [Effect.pickerLookup globalKey, Effect.remoteCall peer.host req])
          | Except.error err =>
              ({ Error := "while fetching rate limit \x27" ++ globalKey ++
                  "\x27 from peer - \x27" ++ err ++ "\x27",
                  Metadata := [("owner", peer.host)] },
                [Effect.pickerLookup globalKey, Effect.remoteCall peer.host req])

/-- Method `Instance.GetRateLimits`: reject oversized batches with an `OutOfRange`
status before touching any item, otherwise one `handleRequest` result per
item in input order.  The second component is the trace of effects of the
whole call ([] when the batch is rejected). -/
def GetRateLimits (env : Env) (reqs : List Request) :
    Except Status (List RateLimit) × List Effect :=
  if reqs.length > maxBatchSize then
    (Except.error
      { code := Code.OutOfRange,
        msg := "Requests.RateLimits list too large; max size is \x27" ++
          toString maxBatchSize ++ "\x27" },
      [])
  else
    let outs := reqs.map (handleRequest env)
    (Except.ok (outs.map Prod.fst), (outs.map Prod.snd).flatten)

/-- The per-item body of the `GetPeerRateLimits` loop: call the local
algorithm directly; on error put the error string in the result slot. -/
def peerHandle (env : Env) (req : Request) : RateLimit × List Effect :=
  match getRateLimit env req with
  | (Except.ok rl, effs) => (rl, effs)
  | (Except.error e, effs) => ({ Error := e }, effs)

/-- Method `Instance.GetPeerRateLimits`: reject oversized batches with an
`OutOfRange` status, otherwise apply the local algorithm to every item with
no validation and no ownership routing. -/
def GetPeerRateLimits (env : Env) (reqs : List Request) :
    Except Status (List RateLimit) × List Effect :=
  if reqs.length > maxBatchSize then
    (Except.error
      { code := Code.OutOfRange,
        msg := "\x27PeerRequest.rate_limits\x27 list too large; max size is \x27" ++
          toString maxBatchSize ++ "\x27" },
      [])
  else
    let outs := reqs.map (peerHandle env)
    (Except.ok (outs.map Prod.fst), (outs.map Prod.snd).flatten)

/-- The (empty) `UpdatePeerGlobalsResp` message. -/
structure UpdatePeerGlobalsResp where
  unit : Unit := ()
  deriving DecidableEq, Repr

/-- Method `Instance.UpdatePeerGlobals`: the body is `return nil, nil` — a nil response pointer
and a nil error, touching no state. -/
def UpdatePeerGlobals : Option UpdatePeerGlobalsResp × Option Status :=
  (none, none)

/-- Modelled from the spec: the consistent-hash `Picker` capability (out of
scope for this core) — a container of added peer handles where `Size` is the
number of members, `GetPeer` recovers the handle for an address, `New` gives
an empty router of the same strategy, `Add` inserts a handle. -/
structure Picker where
  peers : List PeerClient
  deriving DecidableEq, Repr

/-- Modelled from the spec: `Picker.Size() -> int`, the number of members. -/
def Picker.Size (p : Picker) : Nat := p.peers.length

/-- Modelled from the spec: `Picker.GetPeer(address)` recovers an existing
handle for an address, if present. -/
def Picker.GetPeer (p : Picker) (host : String) : Option PeerClient :=
  p.peers.find? (fun q => q.host = host)

/-- Message `HealthCheckResp`: status string, failure message, peer count.
`PeerCount` is an int32 in the source, modelled as `Int` via `toInt32`. -/
structure HealthCheckResp where
  Status : String := ""
  Message : String := ""
  PeerCount : Int := 0
  deriving DecidableEq, Repr

/-- The membership/health state of one `Instance` that `updatePeers`
mutates: the current router and the health snapshot. -/
structure InstanceState where
  Picker : Picker
  health : HealthCheckResp
  deriving DecidableEq, Repr

/-- Go's `int32(n)` conversion from a non-negative length: wrap modulo 2^32
into the signed range. -/
def toInt32 (n : Nat) : Int :=
  let m : Nat := n % 2 ^ 32
  if m < 2 ^ 31 then (m : Int) else (m : Int) - 2 ^ 32

/-- Go stdlib `strings.Join(errs, sep)`. -/
def joinSep (sep : String) : List String → String
  | [] => ""
  | [x] => x
  | x :: y :: rest => x ++ sep ++ joinSep sep (y :: rest)

/-- The failure message `updatePeers` accumulates for an address that fails
to connect. -/
def failMsg (peer : String) : String :=
  "failed to connect to peer \x27" ++ peer ++ "\x27; consistent hash is incomplete"

/-- The body of the `updatePeers` loop for one connectable address: build a
fresh handle, prefer an existing handle from the old router for that
address, mark it as owner when the address is this node's advertise
address. -/
def mkPeer (old : Picker) (adv : String) (peer : String) : PeerClient :=
  let peerInfo : PeerClient := { host := peer, isOwner := false }
  let peerInfo :=
    match old.GetPeer peer with
    | some info => info
    | none => peerInfo
  if peer = adv then { peerInfo with isOwner := true } else peerInfo

/-- The handles added to the new router by the `updatePeers` loop
(`connect addr = true` models `NewPeerClient` succeeding for `addr`);
addresses that fail to connect are skipped. -/
def buildPeers (connect : String → Bool) (old : Picker) (adv : String) :
    List String → List PeerClient
  | [] => []
  | p :: rest =>
      if connect p then mkPeer old adv p :: buildPeers connect old adv rest
      else buildPeers connect old adv rest

/-- The failure messages accumulated by the `updatePeers` loop, in input
order. -/
def connectErrs (connect : String → Bool) : List String → List String
  | [] => []
  | p :: rest =>
      if connect p then connectErrs connect rest
      else failMsg p :: connectErrs connect rest

/-- Method `Instance.updatePeers`: rebuild the router from the delivered membership
list, then commit it and recompute health — `Healthy` when no address
failed, otherwise `UnHealthy` with the joined failure messages; `PeerCount`
is the new router's size.  (The source leaves `Message` untouched when there
are no failures.) -/
def updatePeers (connect : String → Bool) (adv : String) (s : InstanceState)
    (peers : List String) : InstanceState :=
  let picker : Picker := { peers := buildPeers connect s.Picker adv peers }
  let errs := connectErrs connect peers
  let h1 := { s.health with Status := Healthy }
  let h2 :=
    if errs.length ≠ 0 then
      { h1 with Status := UnHealthy, Message := joinSep "|" errs }
    else h1
  { Picker := picker, health := { h2 with PeerCount := toInt32 picker.Size } }

/-- Function `retry(attempts, d, callback)` from `grpc.go`, over the sequence of
attempt outcomes (`none` = callback succeeded).  `i` is the index of the
next attempt; returns the final error (the last attempt's, or `none` on
success or zero attempts) and how many attempts were made. -/
def retry (outcomes : Nat → Option String) : Nat → Nat → Option String × Nat
  | _, 0 => (none, 0)
  | i, n + 1 =>
      match outcomes i with
      | none => (none, 1)
      | some e =>
          match n with
          | 0 => (some e, 1)
          | m + 1 =>
              let r := retry outcomes (i + 1) (m + 1)
              (r.1, r.2 + 1)

/-- Modelled from the spec: the outcomes of the steps `Instance.Start`
sequences — the cache and metrics `Start` calls, each loopback health-probe
attempt, and `PeerSyncer.Start` (`none` = success). -/
structure StartEnv where
  cacheErr : Option String
  metricsErr : Option String
  probe : Nat → Option String
  syncerErr : Option String

/-- What a run of `Instance.Start` did: its return value, how many loopback
health-probe attempts were made, and whether `PeerSyncer.Start` (cluster
registration) was invoked. -/
structure StartOutcome where
  err : Option String := none
  probesAttempted : Nat := 0
  syncerStarted : Bool := false
  deriving DecidableEq, Repr

/-- Method `Instance.Start`: start the cache, then metrics, then self-verify with
`retry(2, 500ms, healthCheck)`; only if the probe succeeds, register with
the `PeerSyncer` using the advertise address.  Error strings follow the
source's `errors.Wrap` messages. -/
def Start (env : StartEnv) : StartOutcome :=
  match env.cacheErr with
  | some e => { err := some ("failed to start cache: " ++ e) }
  | none =>
    match env.metricsErr with
    | some e => { err := some ("failed to start metrics collector: " ++ e) }
    | none =>
      let r := retry env.probe 0 2
      match r.1 with
      | some e =>
          { err := some ("while waiting for server to pass health check: " ++ e),
            probesAttempted := r.2 }
      | none =>
          match env.syncerErr with
          | some e =>
              { err := some ("failed to sync configs with other peers: " ++ e),
                probesAttempted := r.2, syncerStarted := true }
          | none =>
              { err := none, probesAttempted := r.2, syncerStarted := true }

/-- Whether the dispatcher regards an item as failed: validation failure,
routing failure, local-algorithm failure (when this node owns the key), or
remote-call failure (when a peer owns it).  Mirrors the error branches of
`handleRequest`. -/
def itemFails (env : Env) (req : Request) : Bool :=
  if req.UniqueKey.length = 0 then true
  else if req.Namespace.length = 0 then true
  else
    match env.pickerGet (req.Namespace ++ "_" ++ req.UniqueKey) with
    | Except.error _ => true
    | Except.ok peer =>
        if peer.isOwner then
          match (getRateLimit env req).1 with
          | Except.error _ => true
          | Except.ok _ => false
        else
          match env.peerGetRateLimit peer.host req with
          | Except.error _ => true
          | Except.ok _ => false

/-- A concrete test environment: one non-owning peer, a token bucket that
answers, a leaky bucket that fails, a remote peer that answers with its own
metadata. -/
def envA : Env where
  pickerGet := fun _ => Except.ok { host := "10.0.0.9:81", isOwner := false }
  tokenBucket := fun _ => Except.ok { Limit := 10, Remaining := 9 }
  leakyBucket := fun _ => Except.error "leaky failure"
  peerGetRateLimit := fun _ _ =>
    Except.ok { Limit := 5, Remaining := 4, Metadata := [("trace", "x")] }

/-- A concrete test environment whose picker resolves every key to this
node's own handle. -/
def envB : Env where
  pickerGet := fun _ => Except.ok { host := "10.0.0.1:81", isOwner := true }
  tokenBucket := fun _ => Except.ok { Limit := 10, Remaining := 9 }
  leakyBucket := fun _ => Except.error "leaky failure"
  peerGetRateLimit := fun _ _ => Except.error "unreachable"

/-- A concrete valid request used by witnesses. -/
def reqA : Request := { Namespace := "ns", UniqueKey := "k", Algorithm := 0 }

/-- A concrete test environment: a non-owning peer whose remote call
fails. -/
def envC : Env where
  pickerGet := fun _ => Except.ok { host := "10.0.0.9:81", isOwner := false }
  tokenBucket := fun _ => Except.ok { Limit := 10, Remaining := 9 }
  leakyBucket := fun _ => Except.error "leaky failure"
  peerGetRateLimit := fun _ _ => Except.error "connection refused"

/-- The startup environment where the first probe fails and the second
succeeds. -/
def startEnvFlaky : StartEnv where
  cacheErr := none
  metricsErr := none
  probe := fun i => if i = 0 then some "conn refused" else none
  syncerErr := none

/-- The startup environment where every probe attempt fails. -/
def startEnvDown : StartEnv where
  cacheErr := none
  metricsErr := none
  probe := fun _ => some "conn refused"
  syncerErr := none

/-- Concrete connectivity for the C3 witness: every address connects except
one. -/
def connectW : String → Bool := fun a => !(a == "10.0.0.2:81")

/-- An initial instance state with an empty router and default health. -/
def stateW : InstanceState := { Picker := { peers := [] }, health := {} }

theorem append_ne_empty (a b : String) (h : a.data ≠ []) : a ++ b ≠ "" := by
  intro he
  have hd := congrArg String.data he
  rw [String.data_append] at hd
  exact h (List.append_eq_nil.mp hd).1

/-- C5: every batch longer than `maxBatchSize` (1000) is rejected whole by
both `GetRateLimits` and `GetPeerRateLimits` with an `OutOfRange` status
whose message names the bound, and no item is processed (the effect trace is
empty: no validation, routing, local algorithm, or remote call happens). -/
theorem oversized_batch_rejected (env : Env) (reqs : List Request)
    (h : reqs.length > maxBatchSize) :
    GetRateLimits env reqs =
      (Except.error
        { code := Code.OutOfRange,
          msg := "Requests.RateLimits list too large; max size is \x271000\x27" },
        [])
    ∧ GetPeerRateLimits env reqs =
      (Except.error
        { code := Code.OutOfRange,
          msg := "\x27PeerRequest.rate_limits\x27 list too large; max size is \x271000\x27" },
        []) := by
  constructor
  · rw [GetRateLimits, if_pos h]
    rfl
  · rw [GetPeerRateLimits, if_pos h]
    rfl

/-- Witness for C5 at a concrete 1001-item batch. -/
theorem oversized_batch_rejected_witness :
    GetRateLimits envA (List.replicate 1001 reqA) =
      (Except.error
        { code := Code.OutOfRange,
          msg := "Requests.RateLimits list too large; max size is \x271000\x27" },
        [])
    ∧ GetPeerRateLimits envA (List.replicate 1001 reqA) =
      (Except.error
        { code := Code.OutOfRange,
          msg := "\x27PeerRequest.rate_limits\x27 list too large; max size is \x271000\x27" },
        []) :=
  oversized_batch_rejected envA (List.replicate 1001 reqA)
    (by rw [List.length_replicate]; decide)

/-- C8 counterexample: `UpdatePeerGlobals` returns a nil (null) response
pointer, not a non-null empty/default response value. -/
theorem updatePeerGlobals_resp_is_nil : UpdatePeerGlobals.1 = none := rfl

/-- C8 (amended): `UpdatePeerGlobals` is a no-op on the instance's state
that returns a nil response value and no error. -/
theorem updatePeerGlobals_noop_nil :
    UpdatePeerGlobals = ((none : Option UpdatePeerGlobalsResp), (none : Option Status)) := rfl

/-- C6: a `GetRateLimits` item with an empty `unique_key` gets exactly the
result "field 'unique_key' cannot be empty" (this check comes first, so it
also wins when both fields are empty), and an item with a non-empty
`unique_key` but empty `namespace` gets exactly "field 'namespace' cannot be
empty"; in both cases the effect list is empty — no Picker lookup, no local
algorithm invocation, no remote call. -/
theorem empty_field_validation (env : Env) (req : Request) :
    (req.UniqueKey.length = 0 →
      handleRequest env req =
        ({ Error := "field \x27unique_key\x27 cannot be empty" }, []))
    ∧ (req.UniqueKey.length ≠ 0 → req.Namespace.length = 0 →
      handleRequest env req =
        ({ Error := "field \x27namespace\x27 cannot be empty" }, [])) := by
  constructor
  · intro h1
    rw [handleRequest]
    simp only [h1]
    rfl
  · intro h1 h2
    rw [handleRequest]
    simp only [h2, if_neg h1]
    rfl

/-- Witness for C6 at concrete items with one empty field each. -/
theorem empty_field_validation_witness :
    handleRequest envA { Namespace := "ns", UniqueKey := "", Algorithm := 0 } =
      ({ Error := "field \x27unique_key\x27 cannot be empty" }, [])
    ∧ handleRequest envA { Namespace := "", UniqueKey := "k", Algorithm := 0 } =
      ({ Error := "field \x27namespace\x27 cannot be empty" }, []) :=
  ⟨(empty_field_validation envA _).1 (by decide),
   (empty_field_validation envA _).2 (by decide) (by decide)⟩

theorem ne_empty_append (a b : String) (h : a ≠ "") : a ++ b ≠ "" := by
  intro he
  apply h
  apply String.ext
  have hd := congrArg String.data he
  rw [String.data_append] at hd
  rw [(List.append_eq_nil.mp hd).1]

theorem error_of_itemFails (env : Env) (req : Request)
    (hf : itemFails env req = true) : ((handleRequest env req).1).Error ≠ "" := by
  by_cases h1 : req.UniqueKey.length = 0
  · rw [handleRequest]
    simp only [h1, if_true]
    decide
  by_cases h2 : req.Namespace.length = 0
  · rw [handleRequest]
    simp only [if_neg h1, h2, if_true]
    decide
  unfold itemFails at hf
  rw [if_neg h1, if_neg h2] at hf
  rw [handleRequest]
  simp only [if_neg h1, if_neg h2]
  revert hf
  cases hp : env.pickerGet (req.Namespace ++ "_" ++ req.UniqueKey) with
  | error e =>
      intro _
      exact ne_empty_append _ _ (ne_empty_append _ _ (ne_empty_append _ _
        (ne_empty_append _ _ (by decide))))
  | ok peer =>
      by_cases ho : peer.isOwner
      · simp only [ho, if_true]
        intro hf
        revert hf
        rcases hg : getRateLimit env req with ⟨res, effs⟩
        cases res with
        | error e =>
            intro _
            exact ne_empty_append _ _ (ne_empty_append _ _ (ne_empty_append _ _
              (ne_empty_append _ _ (by decide))))
        | ok rl =>
            intro hf
            simp at hf
      · simp only [ho, if_false]
        intro hf
        revert hf
        cases hr : env.peerGetRateLimit peer.host req with
        | error e =>
            intro _
            exact ne_empty_append _ _ (ne_empty_append _ _ (ne_empty_append _ _
              (ne_empty_append _ _ (by decide))))
        | ok rl =>
            intro hf
            simp at hf

/-- C1: a batch within `maxBatchSize` is accepted: the call itself succeeds
(`Except.ok`) no matter how individual items fare, produces exactly one
result per input item in input order (the per-item `handleRequest` result),
and any item that fails validation, routing, the local algorithm, or a
remote call surfaces only as a non-empty `Error` string in its own slot. -/
theorem getRateLimits_per_item_results (env : Env) (reqs : List Request)
    (h : reqs.length ≤ maxBatchSize) :
    (GetRateLimits env reqs).1 =
      Except.ok (reqs.map (fun r => (handleRequest env r).1))
    ∧ (reqs.map (fun r => (handleRequest env r).1)).length = reqs.length
    ∧ ∀ r ∈ reqs, itemFails env r = true → ((handleRequest env r).1).Error ≠ "" := by
  refine ⟨?_, List.length_map _ _, fun r _ hf => error_of_itemFails env r hf⟩
  rw [GetRateLimits, if_neg (not_lt.mpr h)]
  simp [List.map_map, Function.comp]

/-- Witness for C1: a singleton batch whose item fails its local algorithm
still yields a successful call with the error in the item's slot. -/
theorem getRateLimits_per_item_results_witness :
    (GetRateLimits envB [{ Namespace := "ns", UniqueKey := "k", Algorithm := 1 }]).1 =
      Except.ok [(handleRequest envB { Namespace := "ns", UniqueKey := "k", Algorithm := 1 }).1]
    ∧ ((handleRequest envB { Namespace := "ns", UniqueKey := "k", Algorithm := 1 }).1).Error ≠ "" := by
  have hmain := getRateLimits_per_item_results envB
    [{ Namespace := "ns", UniqueKey := "k", Algorithm := 1 }] (by decide)
  exact ⟨by simpa using hmain.1,
    hmain.2.2 _ (List.mem_singleton.mpr rfl) (by decide)⟩

theorem getRateLimit_effects (env : Env) (r : Request) :
    (getRateLimit env r).2 = [Effect.localCall r] ∨ (getRateLimit env r).2 = [] := by
  rw [getRateLimit]
  by_cases h0 : r.Algorithm = Algorithm_TOKEN_BUCKET
  · left
    rw [if_pos h0]
  by_cases h1 : r.Algorithm = Algorithm_LEAKY_BUCKET
  · left
    rw [if_neg h0, if_pos h1]
  · right
    rw [if_neg h0, if_neg h1]

theorem getRateLimit_effects_of_valid (env : Env) (r : Request)
    (hv : r.Algorithm = Algorithm_TOKEN_BUCKET ∨ r.Algorithm = Algorithm_LEAKY_BUCKET) :
    (getRateLimit env r).2 = [Effect.localCall r] := by
  rw [getRateLimit]
  rcases hv with hv | hv
  · rw [if_pos hv]
  · by_cases h0 : r.Algorithm = Algorithm_TOKEN_BUCKET
    · rw [if_pos h0]
    · rw [if_neg h0, if_pos hv]

theorem peerHandle_effects (env : Env) (r : Request) :
    (peerHandle env r).2 = (getRateLimit env r).2 := by
  rw [peerHandle]
  rcases hg : getRateLimit env r with ⟨res, effs⟩
  cases res <;> rfl

/-- C9: every item of an accepted `GetPeerRateLimits` batch is handed
directly to the local algorithm: the call succeeds with one `peerHandle`
result per item in order, its effect trace contains no Picker ownership
lookup and no remote call, and any item with a recognised algorithm is
passed to a local algorithm invocation even when its `namespace` or
`unique_key` is empty — no validation-error result is synthesized, unlike
`GetRateLimits`. -/
theorem peerRateLimits_no_validation_no_routing (env : Env) (reqs : List Request)
    (h : reqs.length ≤ maxBatchSize) :
    (GetPeerRateLimits env reqs).1 =
      Except.ok (reqs.map (fun r => (peerHandle env r).1))
    ∧ (∀ k, Effect.pickerLookup k ∉ (GetPeerRateLimits env reqs).2)
    ∧ (∀ host r, Effect.remoteCall host r ∉ (GetPeerRateLimits env reqs).2)
    ∧ (∀ r ∈ reqs,
        (r.Algorithm = Algorithm_TOKEN_BUCKET ∨ r.Algorithm = Algorithm_LEAKY_BUCKET) →
        Effect.localCall r ∈ (GetPeerRateLimits env reqs).2) := by
  have htrace : (GetPeerRateLimits env reqs).2 =
      ((reqs.map (peerHandle env)).map Prod.snd).flatten := by
    rw [GetPeerRateLimits, if_neg (not_lt.mpr h)]
  refine ⟨?_, ?_, ?_, ?_⟩
  · rw [GetPeerRateLimits, if_neg (not_lt.mpr h)]
    simp [List.map_map, Function.comp]
  · intro k hk
    rw [htrace] at hk
    rw [List.mem_flatten] at hk
    obtain ⟨l, hl, hmem⟩ := hk
    rw [List.map_map, List.mem_map] at hl
    obtain ⟨r, _, rfl⟩ := hl
    rw [Function.comp_apply, peerHandle_effects] at hmem
    rcases getRateLimit_effects env r with he | he <;> rw [he] at hmem <;> simp at hmem
  · intro host r hk
    rw [htrace] at hk
    rw [List.mem_flatten] at hk
    obtain ⟨l, hl, hmem⟩ := hk
    rw [List.map_map, List.mem_map] at hl
    obtain ⟨r2, _, rfl⟩ := hl
    rw [Function.comp_apply, peerHandle_effects] at hmem
    rcases getRateLimit_effects env r2 with he | he <;> rw [he] at hmem <;> simp at hmem
  · intro r hr hv
    rw [htrace, List.mem_flatten]
    refine ⟨(peerHandle env r).2, ?_, ?_⟩
    · rw [List.map_map, List.mem_map]
      exact ⟨r, hr, rfl⟩
    · rw [peerHandle_effects, getRateLimit_effects_of_valid env r hv]
      exact List.mem_singleton.mpr rfl

/-- Witness for C9: a batch whose single item has both fields empty is still
passed to the token-bucket algorithm. -/
theorem peerRateLimits_no_validation_no_routing_witness :
    (GetPeerRateLimits envA [{ Namespace := "", UniqueKey := "", Algorithm := 0 }]).1 =
      Except.ok [(peerHandle envA { Namespace := "", UniqueKey := "", Algorithm := 0 }).1]
    ∧ Effect.localCall { Namespace := "", UniqueKey := "", Algorithm := 0 } ∈
      (GetPeerRateLimits envA [{ Namespace := "", UniqueKey := "", Algorithm := 0 }]).2 := by
  have hmain := peerRateLimits_no_validation_no_routing envA
    [{ Namespace := "", UniqueKey := "", Algorithm := 0 }] (by decide)
  exact ⟨by simpa using hmain.1,
    hmain.2.2.2 _ (List.mem_singleton.mpr rfl) (Or.inl rfl)⟩

theorem handleRequest_owner (env : Env) (req : Request) (peer : PeerClient)
    (hu : req.UniqueKey.length ≠ 0) (hn : req.Namespace.length ≠ 0)
    (hp : env.pickerGet (req.Namespace ++ "_" ++ req.UniqueKey) = Except.ok peer)
    (ho : peer.isOwner = true) :
    handleRequest env req =
      ((match (getRateLimit env req).1 with
        | Except.ok rl => rl
        | Except.error err =>
            { Error := "while applying rate limit for \x27" ++
                (req.Namespace ++ "_" ++ req.UniqueKey) ++ "\x27 - \x27" ++ err ++ "\x27" }),
        Effect.pickerLookup (req.Namespace ++ "_" ++ req.UniqueKey) ::
          (getRateLimit env req).2) := by
  rw [handleRequest]
  simp only [if_neg hu, if_neg hn, hp, ho, if_true]
  rcases hg : getRateLimit env req with ⟨res, effs⟩
  cases res <;> rfl

theorem handleRequest_nonowner (env : Env) (req : Request) (peer : PeerClient)
    (hu : req.UniqueKey.length ≠ 0) (hn : req.Namespace.length ≠ 0)
    (hp : env.pickerGet (req.Namespace ++ "_" ++ req.UniqueKey) = Except.ok peer)
    (ho : peer.isOwner = false) :
    handleRequest env req =
      ((match env.peerGetRateLimit peer.host req with
        | Except.ok rl => { rl with Metadata := [("owner", peer.host)] }
        | Except.error err =>
            { Error := "while fetching rate limit \x27" ++
                (req.Namespace ++ "_" ++ req.UniqueKey) ++ "\x27 from peer - \x27" ++
                err ++ "\x27",
              Metadata := [("owner", peer.host)] }),
        [Effect.pickerLookup (req.Namespace ++ "_" ++ req.UniqueKey),
          Effect.remoteCall peer.host req]) := by
  rw [handleRequest]
  simp only [if_neg hu, if_neg hn, hp, ho, Bool.false_eq_true, if_false]
  cases hr : env.peerGetRateLimit peer.host req <;> rfl

/-- C4: for a valid item whose ownership lookup resolves to this node's own
handle, the item is served through the local-algorithm path — no remote call
appears in its effects, a successful local result is used verbatim, and any
"owner" metadata could only have come from the algorithm's own output; for
an item resolving to a non-owning peer, a remote call to that peer appears
in its effects and the result's metadata maps "owner" to that peer's
address. -/
theorem owner_local_else_remote (env : Env) (req : Request) (peer : PeerClient)
    (hu : req.UniqueKey.length ≠ 0) (hn : req.Namespace.length ≠ 0)
    (hp : env.pickerGet (req.Namespace ++ "_" ++ req.UniqueKey) = Except.ok peer) :
    (peer.isOwner = true →
      (handleRequest env req).2 =
        Effect.pickerLookup (req.Namespace ++ "_" ++ req.UniqueKey) ::
          (getRateLimit env req).2
      ∧ (∀ host r, Effect.remoteCall host r ∉ (handleRequest env req).2)
      ∧ (∀ rl, (getRateLimit env req).1 = Except.ok rl → (handleRequest env req).1 = rl)
      ∧ (∀ v, ("owner", v) ∈ (handleRequest env req).1.Metadata →
          ∃ rl, (getRateLimit env req).1 = Except.ok rl ∧ ("owner", v) ∈ rl.Metadata))
    ∧ (peer.isOwner = false →
      Effect.remoteCall peer.host req ∈ (handleRequest env req).2
      ∧ (handleRequest env req).1.Metadata = [("owner", peer.host)]) := by
  constructor
  · intro ho
    have hH := handleRequest_owner env req peer hu hn hp ho
    refine ⟨?_, ?_, ?_, ?_⟩
    · rw [hH]
    · intro host r hmem
      rw [hH] at hmem
      rcases getRateLimit_effects env req with he | he <;> rw [he] at hmem <;>
        simp at hmem
    · intro rl hrl
      rw [hH]
      simp only [hrl]
    · intro v hv
      rw [hH] at hv
      revert hv
      cases hres : (getRateLimit env req).1 with
      | error e =>
          intro hv
          simp at hv
      | ok rl =>
          intro hv
          exact ⟨rl, rfl, hv⟩
  · intro ho
    have hH := handleRequest_nonowner env req peer hu hn hp ho
    constructor
    · rw [hH]
      simp
    · rw [hH]
      cases hr : env.peerGetRateLimit peer.host req <;> rfl

/-- Witness for C4: under `envB` (owner) no remote call happens and the
token-bucket answer is used verbatim; under `envA` (non-owning peer) the
result's metadata names that peer. -/
theorem owner_local_else_remote_witness :
    (∀ host r, Effect.remoteCall host r ∉ (handleRequest envB reqA).2)
    ∧ (handleRequest envB reqA).1 = { Limit := 10, Remaining := 9 }
    ∧ (handleRequest envA reqA).1.Metadata = [("owner", "10.0.0.9:81")] := by
  have hOwn := (owner_local_else_remote envB reqA
    { host := "10.0.0.1:81", isOwner := true } (by decide) (by decide) rfl).1 rfl
  have hRem := (owner_local_else_remote envA reqA
    { host := "10.0.0.9:81", isOwner := false } (by decide) (by decide) rfl).2 rfl
  exact ⟨hOwn.2.1, hOwn.2.2.1 _ rfl, hRem.2⟩

/-- C10: for a valid item routed to a non-owning peer, the result's metadata
is exactly the single-entry map `{"owner": peer address}` whether the remote
call succeeded or failed; on success the remote result is kept but its
metadata is discarded and replaced by that map, and on failure the
error-slot result carries the same owner map. -/
theorem remote_owner_metadata_replaces (env : Env) (req : Request) (peer : PeerClient)
    (hu : req.UniqueKey.length ≠ 0) (hn : req.Namespace.length ≠ 0)
    (hp : env.pickerGet (req.Namespace ++ "_" ++ req.UniqueKey) = Except.ok peer)
    (ho : peer.isOwner = false) :
    (handleRequest env req).1.Metadata = [("owner", peer.host)]
    ∧ (∀ rl, env.peerGetRateLimit peer.host req = Except.ok rl →
        (handleRequest env req).1 = { rl with Metadata := [("owner", peer.host)] })
    ∧ (∀ e, env.peerGetRateLimit peer.host req = Except.error e →
        (handleRequest env req).1 =
          { Error := "while fetching rate limit \x27" ++
              (req.Namespace ++ "_" ++ req.UniqueKey) ++ "\x27 from peer - \x27" ++
              e ++ "\x27",
            Metadata := [("owner", peer.host)] }) := by
  have hH := handleRequest_nonowner env req peer hu hn hp ho
  refine ⟨?_, ?_, ?_⟩
  · rw [hH]
    cases hr : env.peerGetRateLimit peer.host req <;> rfl
  · intro rl hrl
    rw [hH]
    simp only [hrl]
  · intro e he
    rw [hH]
    simp only [he]

/-- Witness for C10: under `envA` the remote metadata `[("trace","x")]` is
replaced by the owner map; under `envC` the failed remote item still carries
the owner map. -/
theorem remote_owner_metadata_replaces_witness :
    (handleRequest envA reqA).1 =
      { Limit := 5, Remaining := 4, Metadata := [("owner", "10.0.0.9:81")] }
    ∧ (handleRequest envC reqA).1.Metadata = [("owner", "10.0.0.9:81")] := by
  have hOk := remote_owner_metadata_replaces envA reqA
    { host := "10.0.0.9:81", isOwner := false } (by decide) (by decide) rfl rfl
  have hErr := remote_owner_metadata_replaces envC reqA
    { host := "10.0.0.9:81", isOwner := false } (by decide) (by decide) rfl rfl
  exact ⟨hOk.2.1 _ rfl, hErr.1⟩

theorem retry_two (p : Nat → Option String) :
    retry p 0 2 =
      match p 0 with
      | none => (none, 1)
      | some _ =>
          match p 1 with
          | none => (none, 2)
          | some e => (some e, 2) := by
  cases h0 : p 0 with
  | none => simp [retry, h0]
  | some e0 =>
      cases h1 : p 1 with
      | none => simp [retry, h0, h1]
      | some e1 => simp [retry, h0, h1]

/-- C2: `Start` attempts the loopback health probe at most twice and invokes
`PeerSyncer.Start` (cluster registration with the advertise address) only
when the probe loop succeeded; a first successful attempt ends the loop
after one probe; if the first attempt fails and the second succeeds,
startup succeeds after exactly two probes (no third attempt); if both
attempts fail, `Start` returns a non-nil error and registration is never
invoked. -/
theorem start_probe_gates_registration (env : StartEnv) :
    (Start env).probesAttempted ≤ 2
    ∧ ((Start env).syncerStarted = true → (retry env.probe 0 2).1 = none)
    ∧ (env.cacheErr = none → env.metricsErr = none → env.probe 0 = none →
        (Start env).probesAttempted = 1)
    ∧ (env.cacheErr = none → env.metricsErr = none → env.syncerErr = none →
        env.probe 0 ≠ none → env.probe 1 = none →
        (Start env).err = none ∧ (Start env).probesAttempted = 2
          ∧ (Start env).syncerStarted = true)
    ∧ (env.probe 0 ≠ none → env.probe 1 ≠ none →
        (Start env).err ≠ none ∧ (Start env).syncerStarted = false) := by
  rcases env with ⟨ce, me, p, se⟩
  cases ce with
  | some e => simp [Start]
  | none =>
      cases me with
      | some e => simp [Start]
      | none =>
          cases h0 : p 0 with
          | none =>
              cases se <;> simp [Start, retry_two, h0]
          | some e0 =>
              cases h1 : p 1 with
              | none =>
                  cases se <;> simp [Start, retry_two, h0, h1]
              | some e1 => simp [Start, retry_two, h0, h1]

/-- Witness for C2: with the first probe failing and the second succeeding,
startup succeeds after exactly two probes and registration runs; with both
probes failing, startup fails and registration never runs. -/
theorem start_probe_gates_registration_witness :
    ((Start startEnvFlaky).err = none
      ∧ (Start startEnvFlaky).probesAttempted = 2
      ∧ (Start startEnvFlaky).syncerStarted = true)
    ∧ ((Start startEnvDown).err ≠ none
      ∧ (Start startEnvDown).syncerStarted = false) :=
  ⟨(start_probe_gates_registration startEnvFlaky).2.2.2.1 rfl rfl rfl (by decide) rfl,
   (start_probe_gates_registration startEnvDown).2.2.2.2 (by decide) (by decide)⟩

theorem connectErrs_nil_iff (connect : String → Bool) (peers : List String) :
    connectErrs connect peers = [] ↔ ∀ p ∈ peers, connect p = true := by
  induction peers with
  | nil => simp [connectErrs]
  | cons p rest ih =>
      rw [connectErrs]
      by_cases hc : connect p = true
      · rw [if_pos hc]
        simp [hc, ih]
      · rw [if_neg hc]
        simp only [List.mem_cons]
        constructor
        · intro hfalse
          exact absurd hfalse (List.cons_ne_nil _ _)
        · intro hall
          exact absurd (hall p (Or.inl rfl)) hc

theorem failMsg_mem_connectErrs (connect : String → Bool) (peers : List String)
    (p : String) (hp : p ∈ peers) (hc : connect p = false) :
    failMsg p ∈ connectErrs connect peers := by
  induction peers with
  | nil => cases hp
  | cons q rest ih =>
      rw [connectErrs]
      rcases List.mem_cons.mp hp with rfl | hrest
      · rw [if_neg (by rw [hc]; exact Bool.false_ne_true)]
        exact List.mem_cons_self _ _
      · by_cases hq : connect q = true
        · rw [if_pos hq]
          exact ih hrest
        · rw [if_neg hq]
          exact List.mem_cons_of_mem _ (ih hrest)

theorem mem_joinSep_part (sep : String) (errs : List String) (e : String)
    (he : e ∈ errs) : e.data <:+: (joinSep sep errs).data := by
  induction errs with
  | nil => cases he
  | cons x rest ih =>
      cases rest with
      | nil =>
          rw [List.mem_singleton] at he
          subst he
          exact List.infix_refl _
      | cons y rest2 =>
          rw [joinSep]
          rcases List.mem_cons.mp he with rfl | he2
          · refine ⟨[], sep.data ++ (joinSep sep (y :: rest2)).data, ?_⟩
            simp [String.data_append, List.append_assoc]
          · obtain ⟨s, t, hst⟩ := ih he2
            refine ⟨x.data ++ sep.data ++ s, t, ?_⟩
            rw [String.data_append, String.data_append, ← hst]
            simp [List.append_assoc]

theorem addr_part_failMsg (p : String) : p.data <:+: (failMsg p).data := by
  refine ⟨("failed to connect to peer \x27" : String).data,
    ("\x27; consistent hash is incomplete" : String).data, ?_⟩
  rw [failMsg, String.data_append, String.data_append]

theorem buildPeers_length (connect : String → Bool) (old : Picker) (adv : String)
    (peers : List String) :
    (buildPeers connect old adv peers).length = (peers.filter connect).length := by
  induction peers with
  | nil => rfl
  | cons p rest ih =>
      rw [buildPeers, List.filter_cons]
      by_cases hc : connect p = true
      · rw [if_pos hc, if_pos hc]
        simp [ih]
      · rw [if_neg hc, if_neg hc]
        exact ih

theorem updatePeers_eq (connect : String → Bool) (adv : String) (s : InstanceState)
    (peers : List String) :
    updatePeers connect adv s peers =
      { Picker := { peers := buildPeers connect s.Picker adv peers },
        health :=
          { Status := if connectErrs connect peers = [] then Healthy else UnHealthy,
            Message := if connectErrs connect peers = [] then s.health.Message
                       else joinSep "|" (connectErrs connect peers),
            PeerCount := toInt32 (buildPeers connect s.Picker adv peers).length } } := by
  rw [updatePeers]
  by_cases h : connectErrs connect peers = []
  · simp [h, Picker.Size]
  · have hlen : (connectErrs connect peers).length ≠ 0 := by
      simpa [List.length_eq_zero] using h
    simp [h, hlen, Picker.Size]

theorem updatePeers_Status_healthy (connect : String → Bool) (adv : String)
    (s : InstanceState) (peers : List String) (h : ∀ p ∈ peers, connect p = true) :
    (updatePeers connect adv s peers).health.Status = Healthy := by
  rw [updatePeers_eq]
  show (if connectErrs connect peers = [] then Healthy else UnHealthy) = Healthy
  rw [if_pos ((connectErrs_nil_iff connect peers).mpr h)]

theorem updatePeers_Size (connect : String → Bool) (adv : String)
    (s : InstanceState) (peers : List String) :
    (updatePeers connect adv s peers).Picker.Size = (peers.filter connect).length := by
  rw [updatePeers_eq]
  exact buildPeers_length connect s.Picker adv peers

/-- C3: every membership update commits a new router (its size is the
number of addresses that connected, regardless of how many failed); after
the commit the status is `UnHealthy` iff at least one address failed to
connect during this rebuild (and `Healthy` iff none did), the message then
contains every failed address, `PeerCount` is the committed router's
`Size`, and any subsequent rebuild with no failures reverts the status to
`Healthy`. -/
theorem updatePeers_commit_and_health (connect : String → Bool) (adv : String)
    (s : InstanceState) (peers : List String) :
    ((updatePeers connect adv s peers).health.Status = UnHealthy ↔
      ∃ p ∈ peers, connect p = false)
    ∧ ((updatePeers connect adv s peers).health.Status = Healthy ↔
      ∀ p ∈ peers, connect p = true)
    ∧ (∀ p ∈ peers, connect p = false →
        p.data <:+: (updatePeers connect adv s peers).health.Message.data)
    ∧ (updatePeers connect adv s peers).health.PeerCount =
        toInt32 ((updatePeers connect adv s peers).Picker.Size)
    ∧ (updatePeers connect adv s peers).Picker.Size = (peers.filter connect).length
    ∧ (∀ connect2 adv2 peers2, (∀ p ∈ peers2, connect2 p = true) →
        (updatePeers connect2 adv2 (updatePeers connect adv s peers) peers2).health.Status =
          Healthy) := by
  have hne : Healthy ≠ UnHealthy := by decide
  have hiff := connectErrs_nil_iff connect peers
  have hex : (∃ p ∈ peers, connect p = false) ↔ ¬ connectErrs connect peers = [] := by
    rw [hiff]
    constructor
    · intro hcon hall
      obtain ⟨p, hp, hc⟩ := hcon
      rw [hall p hp] at hc
      exact Bool.noConfusion hc
    · intro hnall
      by_contra hno
      apply hnall
      intro p hp
      cases hb : connect p with
      | true => rfl
      | false => exact absurd ⟨p, hp, hb⟩ hno
  refine ⟨?_, ?_, ?_, ?_, ?_, ?_⟩
  · rw [updatePeers_eq]
    show (if connectErrs connect peers = [] then Healthy else UnHealthy) = UnHealthy ↔ _
    by_cases hz : connectErrs connect peers = []
    · rw [if_pos hz]
      constructor
      · intro hcon
        exact absurd hcon hne
      · intro hcon
        exact absurd hz (hex.mp hcon)
    · rw [if_neg hz]
      exact ⟨fun _ => hex.mpr hz, fun _ => rfl⟩
  · rw [updatePeers_eq]
    show (if connectErrs connect peers = [] then Healthy else UnHealthy) = Healthy ↔ _
    by_cases hz : connectErrs connect peers = []
    · rw [if_pos hz]
      exact ⟨fun _ => hiff.mp hz, fun _ => rfl⟩
    · rw [if_neg hz]
      constructor
      · intro hcon
        exact absurd hcon.symm hne
      · intro hall
        exact absurd (hiff.mpr hall) hz
  · intro p hp hc
    have hmem := failMsg_mem_connectErrs connect peers p hp hc
    have hz : ¬ connectErrs connect peers = [] := List.ne_nil_of_mem hmem
    rw [updatePeers_eq]
    show p.data <:+: (if connectErrs connect peers = [] then s.health.Message
      else joinSep "|" (connectErrs connect peers)).data
    rw [if_neg hz]
    exact List.IsInfix.trans (addr_part_failMsg p) (mem_joinSep_part "|" _ _ hmem)
  · rfl
  · exact updatePeers_Size connect adv s peers
  · intro connect2 adv2 peers2 hall
    exact updatePeers_Status_healthy connect2 adv2 _ peers2 hall

/-- Witness for C3: rebuilding with one unreachable address among two flips
the status to `UnHealthy` with the failed address in the message and
commits a one-member router; a follow-up rebuild with a smaller,
all-connectable list reverts the status to `Healthy`. -/
theorem updatePeers_commit_and_health_witness :
    (updatePeers connectW "10.0.0.1:81" stateW
        ["10.0.0.1:81", "10.0.0.2:81"]).health.Status = UnHealthy
    ∧ ("10.0.0.2:81" : String).data <:+:
        (updatePeers connectW "10.0.0.1:81" stateW
          ["10.0.0.1:81", "10.0.0.2:81"]).health.Message.data
    ∧ (updatePeers connectW "10.0.0.1:81" stateW
        ["10.0.0.1:81", "10.0.0.2:81"]).Picker.Size = 1
    ∧ (updatePeers connectW "10.0.0.1:81"
        (updatePeers connectW "10.0.0.1:81" stateW ["10.0.0.1:81", "10.0.0.2:81"])
        ["10.0.0.1:81"]).health.Status = Healthy := by
  have h := updatePeers_commit_and_health connectW "10.0.0.1:81" stateW
    ["10.0.0.1:81", "10.0.0.2:81"]
  refine ⟨h.1.mpr ⟨"10.0.0.2:81", by decide, by decide⟩,
    h.2.2.1 "10.0.0.2:81" (by decide) (by decide),
    ?_, h.2.2.2.2.2 connectW "10.0.0.1:81" ["10.0.0.1:81"] (by decide)⟩
  rw [h.2.2.2.2.1]
  decide

/-- C7: membership rebuild is idempotent — delivering the same list twice
with every address connectable both times yields a router of the same size
after each rebuild and a `Healthy` status both times. -/
theorem updatePeers_idempotent (connect : String → Bool) (adv : String)
    (s : InstanceState) (peers : List String)
    (h : ∀ p ∈ peers, connect p = true) :
    (updatePeers connect adv s peers).Picker.Size =
      (updatePeers connect adv (updatePeers connect adv s peers) peers).Picker.Size
    ∧ (updatePeers connect adv s peers).health.Status = Healthy
    ∧ (updatePeers connect adv (updatePeers connect adv s peers) peers).health.Status =
        Healthy := by
  refine ⟨?_, ?_, ?_⟩
  · rw [updatePeers_Size, updatePeers_Size]
  · exact updatePeers_Status_healthy connect adv s peers h
  · exact updatePeers_Status_healthy connect adv _ peers h

/-- Witness for C7 on a concrete two-address list with full connectivity. -/
theorem updatePeers_idempotent_witness :
    (updatePeers (fun _ => true) "a:81" stateW ["a:81", "b:81"]).Picker.Size =
      (updatePeers (fun _ => true) "a:81"
        (updatePeers (fun _ => true) "a:81" stateW ["a:81", "b:81"])
        ["a:81", "b:81"]).Picker.Size
    ∧ (updatePeers (fun _ => true) "a:81" stateW ["a:81", "b:81"]).health.Status = Healthy
    ∧ (updatePeers (fun _ => true) "a:81"
        (updatePeers (fun _ => true) "a:81" stateW ["a:81", "b:81"])
        ["a:81", "b:81"]).health.Status = Healthy :=
  updatePeers_idempotent (fun _ => true) "a:81" stateW ["a:81", "b:81"]
    (fun _ _ => rfl)

end Gubernator
